import Mathlib

/-!
Verification of the IPC transport and RPC correlation engine of the
`discord-sdk` crate, as a shallow embedding of the Rust sources.

Bytes are modelled as `Nat` (with explicit `% 256` / `% 2 ^ 32` where the Rust
code casts), buffers as `List Nat`, and the stateful handler/reducer code as
pure functions over explicit state values.
-/

namespace DiscordSdk

/-! ### Little-endian u32 encoding (`u32::to_le_bytes` / `u32::from_le_bytes`) -/

/-- `u32::to_le_bytes`: the four little-endian bytes of the low 32 bits of `n`. -/
def u32ToLEBytes (n : Nat) : List Nat :=
  [n % 256, n / 256 % 256, n / 256 ^ 2 % 256, n / 256 ^ 3 % 256]

/-- `u32::from_le_bytes`: recombine four little-endian bytes into a `u32`. -/
def leBytesToU32 (b0 b1 b2 b3 : Nat) : Nat :=
  b0 + 256 * b1 + 256 ^ 2 * b2 + 256 ^ 3 * b3

theorem leBytesToU32_u32ToLEBytes (n : Nat) (h : n < 2 ^ 32) :
    leBytesToU32 (n % 256) (n / 256 % 256) (n / 256 ^ 2 % 256) (n / 256 ^ 3 % 256) = n := by
  unfold leBytesToU32
  omega

/-! ### Frame opcodes (`io.rs`, `enum OpCode`) -/

/-- The five frame opcodes of Discord's 8-byte framing (`io.rs`). -/
inductive OpCode
  | handshake
  | frame
  | close
  | ping
  | pong
deriving DecidableEq, Repr

/-- The `u32` discriminant of each opcode (`#[repr(u32)]`). -/
def OpCode.toU32 : OpCode → Nat
  | .handshake => 0
  | .frame => 1
  | .close => 2
  | .ping => 3
  | .pong => 4

/-! ### Error taxonomy (`error.rs`) -/

/-- `SCREAMING_SNAKE_CASE` RPC command kinds (`proto/command.rs`, `enum CommandKind`). -/
inductive CommandKind
  | dispatch
  | subscribe
  | unsubscribe
  | setActivity
  | sendActivityJoinInvite
  | closeActivityRequest
  | activityInviteUser
  | acceptActivityInvite
  | createLobby
  | updateLobby
  | searchLobbies
  | deleteLobby
  | connectToLobby
  | disconnectFromLobby
  | sendToLobby
  | connectToLobbyVoice
  | disconnectFromLobbyVoice
  | updateLobbyMember
  | setOverlayVisibility
  | openOverlayActivityInvite
  | openOverlayGuildInvite
  | openOverlayVoiceSettings
  | getRelationships
deriving DecidableEq, Repr

/-- Event kinds (`proto/event.rs`, `enum EventKind`); `relationshipUpdate` is the
`RELATIONSHIP_UPDATE` kind of the sdk crate revision. -/
inductive EventKind
  | ready
  | error
  | currentUserUpdate
  | activityJoinRequest
  | activityJoin
  | activitySpectate
  | activityInvite
  | lobbyUpdate
  | lobbyDelete
  | lobbyMemberConnect
  | lobbyMemberUpdate
  | lobbyMemberDisconnect
  | lobbyMessage
  | speakingStart
  | speakingStop
  | overlayUpdate
  | relationshipUpdate
deriving DecidableEq, Repr

/-- `error.rs`, `enum DiscordApiErr`: API errors surfaced by Discord. -/
inductive DiscordApiErr
  | alreadyConnectedToLobby
  | alreadyConnectingToLobby
  | unknown
  | noErrorData
  | malformedCommand
  | generic (code : Option Nat) (message : Option String)
  | invalidLobbySecret
  | invalidCommand (reason : String)
deriving DecidableEq, Repr

/-- `error.rs`, `enum DiscordErr`. -/
inductive DiscordErr
  | mismatchedResponse (expected : CommandKind) (actual : CommandKind) (nonce : Nat)
  | api (err : DiscordApiErr)
deriving DecidableEq, Repr

/-- `error.rs`, `enum Error` (the variants reachable from the verified code paths;
`json` stands for `Error::Json(serde_json::Error)` whose payload is opaque). -/
inductive Error
  | noConnection
  | channelFull
  | channelDisconnected
  | close (message : String)
  | corruptConnection
  | json
  | unknownVariant (kind : String) (value : Nat)
  | discord (err : DiscordErr)
  | timedOut
deriving DecidableEq, Repr

/-! ### Framing codec (`io.rs`) -/

/-- `io.rs`, `parse_frame_header`: parse an 8-byte little-endian header into an
opcode and a body length. Inputs of any other size (impossible for the Rust
`[u8; 8]` argument) are rejected. -/
def parse_frame_header (header : List Nat) : Except Error (OpCode × Nat) :=
  match header with
  | [b0, b1, b2, b3, b4, b5, b6, b7] =>
    let op := leBytesToU32 b0 b1 b2 b3
    let len := leBytesToU32 b4 b5 b6 b7
    if op = 0 then .ok (.handshake, len)
    else if op = 1 then .ok (.frame, len)
    else if op = 2 then .ok (.close, len)
    else if op = 3 then .ok (.ping, len)
    else if op = 4 then .ok (.pong, len)
    else .error (.unknownVariant "OpCode" op)
  | _ => .error .corruptConnection

/-- `io.rs`, `make_message`: 8-byte header (opcode `u32`, `data.len() as u32`,
both little-endian) followed by the body bytes. -/
def make_message (op : OpCode) (data : List Nat) : List Nat :=
  u32ToLEBytes op.toU32 ++ u32ToLEBytes (data.length % 2 ^ 32) ++ data

/-- The receive side of the codec as performed by the I/O loop (`io.rs`,
`io_loop`): read exactly 8 header bytes, parse them, then read exactly `len`
body bytes. -/
def decode_message (msg : List Nat) : Except Error (OpCode × List Nat) :=
  match parse_frame_header (msg.take 8) with
  | .ok (op, len) => .ok (op, (msg.drop 8).take len)
  | .error e => .error e

theorem take_8_make_message (op : OpCode) (data : List Nat) :
    (make_message op data).take 8 =
      u32ToLEBytes op.toU32 ++ u32ToLEBytes (data.length % 2 ^ 32) := by
  simp [make_message, u32ToLEBytes, List.take]

theorem drop_8_make_message (op : OpCode) (data : List Nat) :
    (make_message op data).drop 8 = data := by
  simp [make_message, u32ToLEBytes, List.drop]

theorem parse_frame_header_make_message (op : OpCode) (data : List Nat) :
    parse_frame_header ((make_message op data).take 8) =
      .ok (op, data.length % 2 ^ 32) := by
  rw [take_8_make_message]
  have h : data.length % 2 ^ 32 < 2 ^ 32 := Nat.mod_lt _ (by norm_num)
  have hr := leBytesToU32_u32ToLEBytes (data.length % 2 ^ 32) h
  cases op <;>
    simp [u32ToLEBytes, parse_frame_header, OpCode.toU32, leBytesToU32] at hr ⊢ <;>
    omega

theorem decode_make_message (op : OpCode) (data : List Nat) :
    decode_message (make_message op data) =
      .ok (op, data.take (data.length % 2 ^ 32)) := by
  rw [decode_message, parse_frame_header_make_message, drop_8_make_message]

/-- C2 (counterexample): a body of `2 ^ 32` bytes is truncated by the
`data.len() as u32` cast in `make_message`, so the round-trip fails: the
decoder reads a zero length from the header and returns an empty body. -/
theorem frame_roundtrip_overflow_counterexample :
    decode_message (make_message OpCode.frame (List.replicate (2 ^ 32) 0)) ≠
      Except.ok (OpCode.frame, List.replicate (2 ^ 32) 0) := by
  rw [decode_make_message, List.length_replicate, Nat.mod_self, List.take_zero]
  intro h
  have h2 : ([] : List Nat) = List.replicate (2 ^ 32) (0 : Nat) := by
    injection h with h
    injection h
  have h3 := congrArg List.length h2
  rw [List.length_nil, List.length_replicate] at h3
  exact absurd h3.symm (by positivity)

/-- C2 (amended): for every opcode and every body of fewer than `2 ^ 32` bytes,
decoding the encoded frame recovers the opcode, the body length (from the
header), and the body bytes exactly. -/
theorem frame_roundtrip (op : OpCode) (data : List Nat) (h : data.length < 2 ^ 32) :
    decode_message (make_message op data) = .ok (op, data) ∧
      parse_frame_header ((make_message op data).take 8) = .ok (op, data.length) := by
  constructor
  · rw [decode_make_message, Nat.mod_eq_of_lt h, List.take_length]
  · rw [parse_frame_header_make_message, Nat.mod_eq_of_lt h]

/-- C2 (witness): the round-trip at a concrete frame. -/
theorem frame_roundtrip_witness :
    decode_message (make_message OpCode.ping [104, 105, 33]) = .ok (OpCode.ping, [104, 105, 33]) :=
  (frame_roundtrip OpCode.ping [104, 105, 33] (by norm_num)).1

/-- C8: for every 8-byte header, if the first four little-endian bytes decode
to a value `v ≥ 5` then `parse_frame_header` fails with
`UnknownVariant { kind: "OpCode", value: v }`; for `v ∈ 0..=4` it succeeds with
the corresponding opcode and the little-endian length from the last four
bytes. -/
theorem parse_frame_header_spec (b0 b1 b2 b3 b4 b5 b6 b7 : Nat) :
    (5 ≤ leBytesToU32 b0 b1 b2 b3 →
      parse_frame_header [b0, b1, b2, b3, b4, b5, b6, b7] =
        .error (.unknownVariant "OpCode" (leBytesToU32 b0 b1 b2 b3))) ∧
    (leBytesToU32 b0 b1 b2 b3 = 0 →
      parse_frame_header [b0, b1, b2, b3, b4, b5, b6, b7] =
        .ok (.handshake, leBytesToU32 b4 b5 b6 b7)) ∧
    (leBytesToU32 b0 b1 b2 b3 = 1 →
      parse_frame_header [b0, b1, b2, b3, b4, b5, b6, b7] =
        .ok (.frame, leBytesToU32 b4 b5 b6 b7)) ∧
    (leBytesToU32 b0 b1 b2 b3 = 2 →
      parse_frame_header [b0, b1, b2, b3, b4, b5, b6, b7] =
        .ok (.close, leBytesToU32 b4 b5 b6 b7)) ∧
    (leBytesToU32 b0 b1 b2 b3 = 3 →
      parse_frame_header [b0, b1, b2, b3, b4, b5, b6, b7] =
        .ok (.ping, leBytesToU32 b4 b5 b6 b7)) ∧
    (leBytesToU32 b0 b1 b2 b3 = 4 →
      parse_frame_header [b0, b1, b2, b3, b4, b5, b6, b7] =
        .ok (.pong, leBytesToU32 b4 b5 b6 b7)) := by
  refine ⟨?_, ?_, ?_, ?_, ?_, ?_⟩ <;> intro h <;> simp only [parse_frame_header] <;>
    split_ifs <;> first | rfl | omega

/-- C8 (witness): a header with opcode value 7 is rejected; a header with
opcode value 1 parses as a FRAME with its little-endian length. -/
theorem parse_frame_header_spec_witness :
    parse_frame_header [7, 0, 0, 0, 5, 0, 0, 0] =
      .error (.unknownVariant "OpCode" (leBytesToU32 7 0 0 0)) ∧
    parse_frame_header [1, 0, 0, 0, 5, 0, 0, 0] = .ok (.frame, leBytesToU32 5 0 0 0) :=
  ⟨(parse_frame_header_spec 7 0 0 0 5 0 0 0).1 (by decide),
   (parse_frame_header_spec 1 0 0 0 5 0 0 0).2.2.1 (by decide)⟩

/-! ### JSON frame serialization (`io.rs`, `serialize_message`) -/

/-- The outcome of `serde_json::to_writer` on the cursor: on success the full
JSON encoding of the value; on failure the bytes it managed to write before
erroring (serde may write a partial output). -/
inductive JsonResult
  | ok (bytes : List Nat)
  | err (written : List Nat)
deriving DecidableEq, Repr

/-- `<[u8]>::copy_from_slice` into `l[i .. i + s.length]`. -/
def setSlice (l : List Nat) (i : Nat) (s : List Nat) : List Nat :=
  l.take i ++ s ++ l.drop (i + s.length)

/-- `io.rs`, `serialize_message`: append an 8-byte header with a zero length
placeholder, stream the JSON at offset `start + 8`, then back-patch the true
length into `header[4..8]`; on JSON failure truncate the buffer back to
`start`. Returns the Rust function's `Result` together with the buffer it
leaves behind. -/
def serialize_message (op : OpCode) (jr : JsonResult) (buffer : List Nat) :
    Except Error Unit × List Nat :=
  let start := buffer.length
  let buf1 := buffer ++ u32ToLEBytes op.toU32 ++ [0, 0, 0, 0]
  match jr with
  | .ok j =>
    let buf2 := buf1 ++ j
    let data_len := (buf2.length - start - 8) % 2 ^ 32
    (.ok (), setSlice buf2 (start + 4) (u32ToLEBytes data_len))
  | .err w => (.error .json, (buf1 ++ w).take start)

theorem setSlice_append (l1 s2 l3 s : List Nat) (h : s.length = s2.length) :
    setSlice (l1 ++ (s2 ++ l3)) l1.length s = l1 ++ (s ++ l3) := by
  have hd : (l1 ++ (s2 ++ l3)).drop (l1.length + s2.length) = l3 := by
    rw [← List.append_assoc]
    exact List.drop_left' (by simp)
  unfold setSlice
  rw [h, hd, List.take_left]
  simp [List.append_assoc]

theorem serialize_message_ok_eq (op : OpCode) (j : List Nat) (buffer : List Nat) :
    serialize_message op (.ok j) buffer =
      (.ok (), buffer ++ u32ToLEBytes op.toU32 ++ u32ToLEBytes (j.length % 2 ^ 32) ++ j) := by
  simp only [serialize_message]
  have hdl : (buffer ++ u32ToLEBytes op.toU32 ++ [0, 0, 0, 0] ++ j).length
      - buffer.length - 8 = j.length := by
    simp [u32ToLEBytes]
  have hpos : buffer.length + 4 = (buffer ++ u32ToLEBytes op.toU32).length := by
    simp [u32ToLEBytes]
  rw [hdl, hpos, List.append_assoc (buffer ++ u32ToLEBytes op.toU32) [0, 0, 0, 0] j,
    setSlice_append _ _ _ _ (by simp [u32ToLEBytes]), ← List.append_assoc]

theorem serialize_message_err_eq (op : OpCode) (w : List Nat) (buffer : List Nat) :
    serialize_message op (.err w) buffer = (.error .json, buffer) := by
  simp only [serialize_message]
  rw [List.append_assoc, List.append_assoc,
    List.take_append_of_le_length le_rfl, List.take_length]

/-- C7 (counterexample): for a JSON encoding of `2 ^ 32` bytes, the
back-patched length field holds `0` (the length modulo `2 ^ 32`), not the
actual JSON length, because of the `as u32` cast. -/
theorem serialize_length_field_counterexample :
    (((serialize_message OpCode.frame (.ok (List.replicate (2 ^ 32) 48)) []).2.drop 4).take 4 =
      [0, 0, 0, 0]) ∧
    (List.replicate (2 ^ 32) (48 : Nat)).length ≠ leBytesToU32 0 0 0 0 := by
  have h := serialize_message_ok_eq OpCode.frame (List.replicate (2 ^ 32) 48) []
  rw [List.length_replicate, Nat.mod_self] at h
  constructor
  · rw [h, List.nil_append,
      show u32ToLEBytes (OpCode.toU32 OpCode.frame) = [1, 0, 0, 0] from by
        norm_num [u32ToLEBytes, OpCode.toU32],
      show u32ToLEBytes 0 = [0, 0, 0, 0] from by norm_num [u32ToLEBytes]]
    show List.take 4 (List.drop 4
      ([1, 0, 0, 0] ++ [0, 0, 0, 0] ++ List.replicate (2 ^ 32) 48)) = [0, 0, 0, 0]
    rw [List.append_assoc, List.drop_left' (by norm_num), List.take_left' (by norm_num)]
  · rw [List.length_replicate]
    norm_num [leBytesToU32]

/-- C7 (amended): on success `serialize_message` appends exactly `8 + n` bytes
(`n` the JSON length), the back-patched field at `start + 4 .. start + 8`
holds `n mod 2 ^ 32` (so exactly `n` whenever `n < 2 ^ 32`), and the bytes
before the pre-call length are untouched; on JSON failure it returns an error
and the buffer is restored to exactly its pre-call contents. -/
theorem serialize_message_contract (op : OpCode) (buffer : List Nat) :
    (∀ j : List Nat,
      (serialize_message op (.ok j) buffer).1 = .ok () ∧
      (serialize_message op (.ok j) buffer).2.length = buffer.length + 8 + j.length ∧
      (serialize_message op (.ok j) buffer).2.take buffer.length = buffer ∧
      ((serialize_message op (.ok j) buffer).2.drop (buffer.length + 4)).take 4 =
        u32ToLEBytes (j.length % 2 ^ 32) ∧
      (j.length < 2 ^ 32 →
        ((serialize_message op (.ok j) buffer).2.drop (buffer.length + 4)).take 4 =
          u32ToLEBytes j.length)) ∧
    (∀ w : List Nat, serialize_message op (.err w) buffer = (.error .json, buffer)) := by
  refine ⟨fun j => ?_, fun w => serialize_message_err_eq op w buffer⟩
  have hok := serialize_message_ok_eq op j buffer
  have hfield : ((buffer ++ u32ToLEBytes op.toU32 ++ u32ToLEBytes (j.length % 2 ^ 32) ++ j).drop
      (buffer.length + 4)).take 4 = u32ToLEBytes (j.length % 2 ^ 32) := by
    rw [List.append_assoc (buffer ++ u32ToLEBytes op.toU32) _ j,
      show buffer.length + 4 = (buffer ++ u32ToLEBytes op.toU32).length from by
        simp [u32ToLEBytes],
      List.drop_left, List.take_left' (by simp [u32ToLEBytes])]
  have hlen : (buffer ++ u32ToLEBytes op.toU32 ++ u32ToLEBytes (j.length % 2 ^ 32) ++ j).length =
      buffer.length + 8 + j.length := by
    simp [u32ToLEBytes]
    omega
  have htake : List.take buffer.length
      (buffer ++ u32ToLEBytes op.toU32 ++ u32ToLEBytes (j.length % 2 ^ 32) ++ j) = buffer := by
    rw [List.append_assoc, List.append_assoc, List.take_left]
  refine ⟨rfl, ?_, ?_, ?_, fun hlt => ?_⟩
  · rw [hok]; exact hlen
  · rw [hok]; exact htake
  · rw [hok]; exact hfield
  · rw [hok, show u32ToLEBytes j.length = u32ToLEBytes (j.length % 2 ^ 32) from by
      rw [Nat.mod_eq_of_lt hlt]]
    exact hfield

/-- C7 (witness): the contract evaluated on a concrete buffer and JSON body. -/
theorem serialize_message_contract_witness :
    (((serialize_message OpCode.frame (.ok [123]) [9]).2.drop 5).take 4 = u32ToLEBytes 1) ∧
    serialize_message OpCode.frame (.err [1, 2]) [9] = (.error .json, [9]) :=
  ⟨by simpa using ((serialize_message_contract OpCode.frame [9]).1 [123]).2.2.2.2 (by norm_num),
   (serialize_message_contract OpCode.frame [9]).2 [1, 2]⟩

/-! ### Discord API error mapping (`error.rs`, `impl From<Option<ErrorPayloadStack>>`) -/

/-- `types.rs`, `ErrorPayloadStack`: the `{ code?, message? }` body of an ERROR
event (the `Cow` borrow is irrelevant to the mapping and modelled as `String`). -/
structure ErrorPayloadStack where
  code : Option Nat
  message : Option String
deriving DecidableEq, Repr

/-- `error.rs`, `From<Option<ErrorPayloadStack>> for DiscordApiErr`.
`str::starts_with` is modelled on the character data; under that guard,
`strip_prefix("Invalid command: ").unwrap_or("unknown")` always strips, i.e.
drops the prefix length. -/
def discordApiErrFromPayload (payload : Option ErrorPayloadStack) : DiscordApiErr :=
  match payload with
  | some p =>
    let code := p.code
    let message := p.message
    let to_known : String → DiscordApiErr → DiscordApiErr := fun expected err =>
      if message = some expected then err else .generic code message
    match p.code with
    | some inner =>
      if inner = 1000 then to_known "Unknown Error" .unknown
      else if inner = 1003 then to_known "protocol error" .malformedCommand
      else if inner = 4000 then .invalidCommand (message.getD "unknown problem")
      else if inner = 4002 then
        match message with
        | some msg =>
          if "Invalid command: ".data.isPrefixOf msg.data then
            .invalidCommand (msg.drop "Invalid command: ".length)
          else .generic code message
        | none => .generic code message
      else .generic code message
    | none => .generic code message
  | none => .noErrorData

/-- C6: the mapping of well-known Discord error codes: 1000 "Unknown Error" →
`Unknown`, 1003 "protocol error" → `MalformedCommand`, 4000 →
`InvalidCommand { reason: message }`, 4002 with an "Invalid command: " message
→ `InvalidCommand { reason: suffix }`, and every other code/message
combination → `Generic { code, message }`. -/
theorem discord_api_err_mapping :
    discordApiErrFromPayload (some ⟨some 1000, some "Unknown Error"⟩) = .unknown ∧
    discordApiErrFromPayload (some ⟨some 1003, some "protocol error"⟩) = .malformedCommand ∧
    (∀ msg : String, discordApiErrFromPayload (some ⟨some 4000, some msg⟩) = .invalidCommand msg) ∧
    (∀ msg : String, "Invalid command: ".data.isPrefixOf msg.data = true →
      discordApiErrFromPayload (some ⟨some 4002, some msg⟩) =
        .invalidCommand (msg.drop "Invalid command: ".length)) ∧
    (∀ (code : Nat) (message : Option String),
      ¬(code = 1000 ∧ message = some "Unknown Error") →
      ¬(code = 1003 ∧ message = some "protocol error") →
      code ≠ 4000 →
      ¬(code = 4002 ∧ ∃ msg, message = some msg ∧
        "Invalid command: ".data.isPrefixOf msg.data = true) →
      discordApiErrFromPayload (some ⟨some code, message⟩) = .generic (some code) message) := by
  refine ⟨by simp [discordApiErrFromPayload], by simp [discordApiErrFromPayload],
    fun msg => by simp [discordApiErrFromPayload, Option.getD], fun msg h => by
      simp [discordApiErrFromPayload, h], fun code message h1000 h1003 h4000 h4002 => ?_⟩
  by_cases hc0 : code = 1000
  · have hm : message ≠ some "Unknown Error" := fun hm => h1000 ⟨hc0, hm⟩
    simp [discordApiErrFromPayload, hc0, hm]
  · by_cases hc3 : code = 1003
    · have hm : message ≠ some "protocol error" := fun hm => h1003 ⟨hc3, hm⟩
      simp [discordApiErrFromPayload, hc0, hc3, hm]
    · by_cases hc2 : code = 4002
      · cases message with
        | none => simp [discordApiErrFromPayload, hc0, hc3, h4000, hc2]
        | some msg =>
          have hsw : ¬"Invalid command: ".data.isPrefixOf msg.data = true := fun hsw =>
            h4002 ⟨hc2, msg, rfl, hsw⟩
          simp [discordApiErrFromPayload, hc0, hc3, h4000, hc2, hsw]
      · simp [discordApiErrFromPayload, hc0, hc3, h4000, hc2]

/-- C6 (witness): the mapping at concrete payloads for each branch. -/
theorem discord_api_err_mapping_witness :
    discordApiErrFromPayload (some ⟨some 4000, some "bad"⟩) = .invalidCommand "bad" ∧
    discordApiErrFromPayload (some ⟨some 4002, some "Invalid command: foo"⟩) =
      .invalidCommand (("Invalid command: foo").drop "Invalid command: ".length) ∧
    discordApiErrFromPayload (some ⟨some 9999, some "huh"⟩) = .generic (some 9999) (some "huh") :=
  ⟨discord_api_err_mapping.2.2.1 "bad",
   discord_api_err_mapping.2.2.2.1 "Invalid command: foo" (by decide),
   discord_api_err_mapping.2.2.2.2 9999 (some "huh") (by simp) (by simp) (by norm_num)
     (by norm_num)⟩

/-- C10: a code 4000 payload with an absent message still maps, to
`InvalidCommand { reason: "unknown problem" }`. -/
theorem error_4000_without_message :
    discordApiErrFromPayload (some ⟨some 4000, none⟩) = .invalidCommand "unknown problem" := by
  simp [discordApiErrFromPayload, Option.getD]

/-! ### Reconnect backoff (`io.rs`, `start_io_task` outer loop) -/

/-- `io.rs`, `start_io_task`: on a connect failure the stored duration (in
milliseconds) is doubled, then clamped to 60 s whenever
`reconnect_dur.as_secs() > 60`, and the task sleeps for the result. -/
def backoff_step (durMs : Nat) : Nat :=
  let d := durMs * 2
  if d / 1000 > 60 then 60000 else d

/-- `io.rs`, `start_io_task`: `reconnect_dur` starts at 500 ms. -/
def initial_reconnect_dur : Nat := 500

/-- `io.rs`, `start_io_task`: on a successful connect the stored duration is
reset to 500 ms. -/
def reconnect_dur_after_success (_durMs : Nat) : Nat := 500

/-- The stored reconnect duration after `n` consecutive connect failures
starting from the initial 500 ms; for `n ≥ 1` this is also the duration slept
on the `n`-th failure (the doubling happens before the sleep). -/
def reconnect_dur_after_failures : Nat → Nat
  | 0 => initial_reconnect_dur
  | n + 1 => backoff_step (reconnect_dur_after_failures n)

/-- C3 (counterexample): the first connect failure sleeps 1000 ms, not the
claimed 500 ms, because the duration is doubled before the sleep. -/
theorem backoff_first_sleep_counterexample :
    reconnect_dur_after_failures 1 = 1000 ∧ reconnect_dur_after_failures 1 ≠ 500 := by
  constructor <;> decide

/-- C3 (amended): successive connect failures sleep `min (500 * 2 ^ n) 60000`
milliseconds on the `n`-th failure — i.e. 1 s, 2 s, 4 s, 8 s, 16 s, 32 s,
60 s, 60 s, … — and a successful connect resets the stored duration to the
initial 500 ms. -/
theorem backoff_sleep_durations :
    (∀ n : Nat, reconnect_dur_after_failures n = min (500 * 2 ^ n) 60000) ∧
    (∀ d : Nat, reconnect_dur_after_success d = initial_reconnect_dur) := by
  refine ⟨fun n => ?_, fun d => rfl⟩
  induction n with
  | zero => decide
  | succ k ih =>
    rw [reconnect_dur_after_failures, ih, backoff_step]
    have hp : (1 : Nat) ≤ 2 ^ k := Nat.one_le_two_pow
    have hp2 : (2 : Nat) ^ (k + 1) = 2 * 2 ^ k := by rw [pow_succ]; ring
    set p := (2 : Nat) ^ k with hpdef
    rw [hp2]
    simp only [Nat.min_def]
    split_ifs <;> omega

/-! ### Lobby voice RPCs (`lobby.rs`, both crate revisions) -/

/-- An RPC issued through `send_rpc`: the command kind sent on the wire and
the lobby id argument (`LobbyAction { id }`). -/
structure LobbyVoiceRpc where
  cmd : CommandKind
  id : Nat
deriving DecidableEq, Repr

namespace SrcLobby

/-- `src/lobby.rs`, `disconnect_lobby_voice`: sends
`CommandKind::ConnectToLobbyVoice` and treats a `Command::ConnectToLobbyVoice`
response as success (the request it emits, paired with the response kind its
`handle_response!` expects). -/
def disconnect_lobby_voice (id : Nat) : LobbyVoiceRpc × CommandKind :=
  (⟨CommandKind.connectToLobbyVoice, id⟩, CommandKind.connectToLobbyVoice)

end SrcLobby

namespace SdkLobby

/-- `sdk/src/lobby.rs`, `disconnect_lobby_voice`: sends
`CommandKind::DisconnectFromLobbyVoice` and expects a
`Command::DisconnectFromLobbyVoice` response. -/
def disconnect_lobby_voice (id : Nat) : LobbyVoiceRpc × CommandKind :=
  (⟨CommandKind.disconnectFromLobbyVoice, id⟩, CommandKind.disconnectFromLobbyVoice)

end SdkLobby

/-- C5: evaluated at lobby id 1, the `src` crate revision of
`disconnect_lobby_voice` emits `CONNECT_TO_LOBBY_VOICE` (the copy/paste bug),
contradicting the claim, while the `sdk` revision emits and expects the
`DISCONNECT_FROM_LOBBY_VOICE` kind as the claim states. -/
theorem disconnect_lobby_voice_kinds :
    (SrcLobby.disconnect_lobby_voice 1).1.cmd = CommandKind.connectToLobbyVoice ∧
    (SrcLobby.disconnect_lobby_voice 1).1.cmd ≠ CommandKind.disconnectFromLobbyVoice ∧
    (SdkLobby.disconnect_lobby_voice 1).1.cmd = CommandKind.disconnectFromLobbyVoice ∧
    (SdkLobby.disconnect_lobby_voice 1).2 = CommandKind.disconnectFromLobbyVoice := by
  refine ⟨rfl, ?_, rfl, rfl⟩
  decide

/-! ### Handler / correlator (`handler.rs`, `handler_task` and `pop_nonce`) -/

/-- `lib.rs`, `NotifyItem`: a pending RPC — its nonce and the expected
response `CommandKind` (the oneshot sender is modelled by returning the value
that would be sent through it). -/
structure NotifyItem where
  nonce : Nat
  cmd : CommandKind
deriving DecidableEq, Repr

/-- `Vec::swap_remove(i)`: replace the element at `i` with the last element
and pop. -/
def swapRemove {α : Type} (l : List α) (i : Nat) : List α :=
  match l.getLast? with
  | none => l
  | some last => (l.set i last).dropLast

/-- `handler.rs`, `pop_nonce`: find the position of the first pending entry
with the given nonce and `swap_remove` it, returning the removed entry (if
any) together with the remaining queue. -/
def pop_nonce (queue : List NotifyItem) (nonce : Nat) : Option NotifyItem × List NotifyItem :=
  match queue.findIdx? (fun item => item.nonce == nonce) with
  | some i => (queue[i]?, swapRemove queue i)
  | none => (none, queue)

/-- `proto/command.rs`, `CommandFrame`: a deserialized command response frame;
the payload (`inner`) is opaque to the correlator. -/
structure CommandFrame (α : Type) where
  inner : α
  nonce : Nat

/-- `handler.rs`, `handler_task`, `Msg::Command` arm: a SUBSCRIBE
confirmation is consumed; otherwise the pending entry with the frame's nonce
is popped, and its oneshot is fulfilled with `Ok(inner)` when the response
kind matches the expected kind and with
`Err(Discord(MismatchedResponse { expected, actual, nonce }))` otherwise.
Returns the new pending queue and the fulfilment (entry, value) if any. -/
def handle_command {α : Type} (queue : List NotifyItem) (frame : CommandFrame α)
    (kind : CommandKind) : List NotifyItem × Option (NotifyItem × Except Error α) :=
  if kind = CommandKind.subscribe then (queue, none)
  else
    match pop_nonce queue frame.nonce with
    | (some ni, rest) =>
      (rest, some (ni, if ni.cmd = kind then Except.ok frame.inner
        else Except.error (.discord (.mismatchedResponse ni.cmd kind frame.nonce))))
    | (none, rest) => (rest, none)

theorem findIdx?_first_match {α : Type} (p : α → Bool) (pre : List α) (x : α) (post : List α)
    (hpre : ∀ a ∈ pre, p a = false) (hx : p x = true) :
    (pre ++ x :: post).findIdx? p = some pre.length := by
  induction pre with
  | nil => simp [hx]
  | cons a as ih =>
    have ha : p a = false := hpre a (List.mem_cons_self a as)
    have ih2 := ih fun b hb => hpre b (List.mem_cons_of_mem a hb)
    rw [List.cons_append, List.findIdx?_cons, if_neg (by simp [ha]), List.findIdx?_succ, ih2]
    rfl

theorem set_append_length {α : Type} (pre : List α) (y z : α) (rest : List α) :
    (pre ++ y :: rest).set pre.length z = pre ++ z :: rest := by
  induction pre with
  | nil => rfl
  | cons a as ih => simp [List.set, ih]

theorem swapRemove_append_perm {α : Type} (pre : List α) (x : α) (post : List α) :
    (swapRemove (pre ++ x :: post) pre.length).Perm (pre ++ post) := by
  rcases post.eq_nil_or_concat with hpost | ⟨init, last, hpost⟩ <;> subst hpost
  · have hlast : (pre ++ x :: []).getLast? = some x := by
      rw [show pre ++ x :: [] = pre ++ [x] from rfl, List.getLast?_concat]
    have hsw : swapRemove (pre ++ x :: []) pre.length =
        ((pre ++ x :: []).set pre.length x).dropLast := by
      rw [swapRemove, hlast]
    rw [hsw, set_append_length, show pre ++ x :: [] = pre ++ [x] from rfl,
      List.dropLast_concat]
    simp
  · simp only [List.concat_eq_append]
    have hlast : (pre ++ x :: (init ++ [last])).getLast? = some last := by
      rw [show pre ++ x :: (init ++ [last]) = (pre ++ x :: init) ++ [last] from by simp,
        List.getLast?_concat]
    have hsw : swapRemove (pre ++ x :: (init ++ [last])) pre.length =
        ((pre ++ x :: (init ++ [last])).set pre.length last).dropLast := by
      rw [swapRemove, hlast]
    rw [hsw, set_append_length,
      show pre ++ last :: (init ++ [last]) = (pre ++ last :: init) ++ [last] from by simp,
      List.dropLast_concat]
    exact List.Perm.append_left pre ((List.perm_append_singleton last init).symm)

/-- C1: for a non-SUBSCRIBE command response, the correlator removes exactly
the pending entry whose nonce equals the frame's nonce (the queue shrinks by
one), fulfilling it with `Ok(inner)` on a kind match and with
`MismatchedResponse { expected, actual, nonce }` on a mismatch; when no
pending entry has that nonce, the queue is unchanged and nothing is
fulfilled. -/
theorem handler_correlation {α : Type} (queue : List NotifyItem) (frame : CommandFrame α)
    (kind : CommandKind) (hk : kind ≠ CommandKind.subscribe) :
    (∀ pre item post, queue = pre ++ item :: post → item.nonce = frame.nonce →
      (∀ x ∈ pre, x.nonce ≠ frame.nonce) → (∀ x ∈ post, x.nonce ≠ frame.nonce) →
      (handle_command queue frame kind).1.Perm (pre ++ post) ∧
      (handle_command queue frame kind).1.length + 1 = queue.length ∧
      (handle_command queue frame kind).2 = some (item,
        if item.cmd = kind then Except.ok frame.inner
        else Except.error (.discord (.mismatchedResponse item.cmd kind frame.nonce)))) ∧
    ((∀ x ∈ queue, x.nonce ≠ frame.nonce) →
      handle_command queue frame kind = (queue, none)) := by
  constructor
  · intro pre item post hq hn hpre hpost
    subst hq
    have hfind : (pre ++ item :: post).findIdx? (fun it => it.nonce == frame.nonce) =
        some pre.length := by
      refine findIdx?_first_match _ pre item post (fun a ha => ?_) (by simp [hn])
      simp only [beq_eq_false_iff_ne, ne_eq]
      exact hpre a ha
    have hget : (pre ++ item :: post)[pre.length]? = some item := by
      rw [List.getElem?_append_right le_rfl]
      simp
    have hperm := swapRemove_append_perm pre item post
    have hcmd : handle_command (pre ++ item :: post) frame kind =
        (swapRemove (pre ++ item :: post) pre.length, some (item,
          if item.cmd = kind then Except.ok frame.inner
          else Except.error (.discord (.mismatchedResponse item.cmd kind frame.nonce)))) := by
      rw [handle_command, if_neg hk, pop_nonce, hfind]
      simp only [hget]
    rw [hcmd]
    refine ⟨hperm, ?_, rfl⟩
    have hlen := hperm.length_eq
    simp only [List.length_append, List.length_cons] at hlen ⊢
    omega
  · intro hnone
    have hfind : queue.findIdx? (fun it => it.nonce == frame.nonce) = none := by
      rw [List.findIdx?_eq_none_iff]
      intro x hx
      simp only [beq_eq_false_iff_ne, ne_eq]
      exact hnone x hx
    rw [handle_command, if_neg hk, pop_nonce, hfind]

/-- C1 (witness): a response with nonce 2 pops exactly the second pending
entry and fulfils it with `Ok`. -/
theorem handler_correlation_witness :
    (handle_command [⟨1, .setActivity⟩, ⟨2, .createLobby⟩] (⟨(), 2⟩ : CommandFrame Unit)
      CommandKind.createLobby).2 = some (⟨2, .createLobby⟩, Except.ok ()) ∧
    (handle_command [⟨1, .setActivity⟩, ⟨2, .createLobby⟩] (⟨(), 2⟩ : CommandFrame Unit)
      CommandKind.createLobby).1.Perm [⟨1, .setActivity⟩] := by
  have h := (handler_correlation [⟨1, .setActivity⟩, ⟨2, .createLobby⟩]
    (⟨(), 2⟩ : CommandFrame Unit) CommandKind.createLobby (by decide)).1
    [⟨1, .setActivity⟩] ⟨2, .createLobby⟩ [] rfl rfl
    (by intro x hx; fin_cases hx; decide) (by intro x hx; exact absurd hx (List.not_mem_nil x))
  exact ⟨h.2.2, by simpa using h.1⟩

/-! ### Subscription engine (`handler.rs`, `subscribe_task`) -/

/-- `lib.rs`, `Subscriptions` bitflags (sdk revision values). -/
def SUBS_ACTIVITY : Nat := 0x1

def SUBS_LOBBY : Nat := 0x2

def SUBS_USER : Nat := 0x4

def SUBS_OVERLAY : Nat := 0x8

def SUBS_RELATIONSHIPS : Nat := 0x10

/-- `bitflags::contains`: `(self.bits & other.bits) == other.bits`. -/
def subs_contains (subs flag : Nat) : Bool := subs &&& flag == flag

/-- `handler.rs`, `subscribe_task`: the distinguishing high bit OR-ed into
subscription nonces on 64-bit platforms. -/
def NONCE_TAG : Nat := 0x1000000000000000

/-- One SUBSCRIBE RPC as serialized by `subscribe_task`: always
`cmd = SUBSCRIBE`, the event kind in `evt`, a tagged nonce, and `args` that
are absent except for the OVERLAY pid argument. -/
structure SubscribeRpc where
  cmd : CommandKind
  evt : EventKind
  nonce : Nat
  args : Option Nat
deriving DecidableEq, Repr

/-- `handler.rs`, `subscribe_task`: the ACTIVITY flag's event kinds. -/
def activity_sub_kinds (subs : Nat) : List EventKind :=
  if subs_contains subs SUBS_ACTIVITY then
    [EventKind.activityInvite, EventKind.activityJoin, EventKind.activityJoinRequest,
     EventKind.activitySpectate]
  else []

/-- `handler.rs`, `subscribe_task`: the LOBBY flag's event kinds. -/
def lobby_sub_kinds (subs : Nat) : List EventKind :=
  if subs_contains subs SUBS_LOBBY then
    [EventKind.lobbyDelete, EventKind.lobbyMemberConnect, EventKind.lobbyMemberDisconnect,
     EventKind.lobbyMemberUpdate, EventKind.lobbyMessage, EventKind.lobbyUpdate,
     EventKind.speakingStart, EventKind.speakingStop]
  else []

/-- `handler.rs`, `subscribe_task`: the USER flag's event kinds. -/
def user_sub_kinds (subs : Nat) : List EventKind :=
  if subs_contains subs SUBS_USER then [EventKind.currentUserUpdate] else []

/-- Modelled from the spec: the sdk crate revision's subscription engine (its
`handler` module root file is not among the provided sources) expands the
RELATIONSHIPS flag to the single `RelationshipUpdate` event kind, with no
args, like the other non-OVERLAY flags. -/
def relationships_sub_kinds (subs : Nat) : List EventKind :=
  if subs_contains subs SUBS_RELATIONSHIPS then [EventKind.relationshipUpdate] else []

/-- The `activity.chain(lobby).chain(user)` iterator of `subscribe_task`,
with the spec-modelled RELATIONSHIPS kinds appended. -/
def chained_sub_kinds (subs : Nat) : List EventKind :=
  activity_sub_kinds subs ++ lobby_sub_kinds subs ++ user_sub_kinds subs ++
    relationships_sub_kinds subs

/-- The `push` closure of `subscribe_task`: serialize one SUBSCRIBE RPC per
kind, tagging and incrementing the nonce. -/
def push_subs : List EventKind → Nat → List SubscribeRpc
  | [], _ => []
  | k :: ks, n =>
    SubscribeRpc.mk CommandKind.subscribe k (NONCE_TAG ||| n) none :: push_subs ks (n + 1)

/-- `handler.rs`, `subscribe_task`: the full sequence of SUBSCRIBE RPCs
written into the single buffer — the chained no-args kinds with nonces from 1,
then the special OVERLAY_UPDATE subscribe carrying `{ pid }`. -/
def subscribe_frames (subs pid : Nat) : List SubscribeRpc :=
  push_subs (chained_sub_kinds subs) 1 ++
    (if subs_contains subs SUBS_OVERLAY then
      [SubscribeRpc.mk CommandKind.subscribe EventKind.overlayUpdate
        (NONCE_TAG ||| ((chained_sub_kinds subs).length + 1)) (some pid)]
    else [])

/-- The spec's wording of the subscribe expansion (spec section 4.7): the
union over the flags of the per-flag event-kind sets, with OVERLAY the only
args-bearing subscribe, carrying the process id. -/
def spec_subscribe_expansion (subs pid : Nat) : List (EventKind × Option Nat) :=
  (if subs_contains subs SUBS_ACTIVITY then
    [(EventKind.activityInvite, none), (EventKind.activityJoin, none),
     (EventKind.activityJoinRequest, none), (EventKind.activitySpectate, none)]
  else []) ++
  (if subs_contains subs SUBS_LOBBY then
    [(EventKind.lobbyDelete, none), (EventKind.lobbyMemberConnect, none),
     (EventKind.lobbyMemberDisconnect, none), (EventKind.lobbyMemberUpdate, none),
     (EventKind.lobbyMessage, none), (EventKind.lobbyUpdate, none),
     (EventKind.speakingStart, none), (EventKind.speakingStop, none)]
  else []) ++
  (if subs_contains subs SUBS_USER then [(EventKind.currentUserUpdate, none)] else []) ++
  (if subs_contains subs SUBS_OVERLAY then [(EventKind.overlayUpdate, some pid)] else []) ++
  (if subs_contains subs SUBS_RELATIONSHIPS then [(EventKind.relationshipUpdate, none)] else [])

theorem push_subs_map_evt_args (ks : List EventKind) (n : Nat) :
    (push_subs ks n).map (fun f => (f.evt, f.args)) =
      ks.map fun k => (k, (none : Option Nat)) := by
  induction ks generalizing n with
  | nil => rfl
  | cons k ks ih => simp [push_subs, ih]

theorem push_subs_cmd (ks : List EventKind) (n : Nat) :
    ∀ f ∈ push_subs ks n, f.cmd = CommandKind.subscribe := by
  induction ks generalizing n with
  | nil => intro f hf; exact absurd hf (List.not_mem_nil f)
  | cons k ks ih =>
    intro f hf
    rcases List.mem_cons.mp hf with h | h
    · rw [h]
    · exact ih (n + 1) f h

/-- C4: the SUBSCRIBE frames emitted on Ready are exactly (up to order) the
union over the subscription flags of the per-flag expansions, with OVERLAY
the only args-bearing subscribe (carrying the pid) and every frame a
SUBSCRIBE command; in particular `ACTIVITY | USER` emits exactly the 5
expected frames (4 activity + 1 user) with no args. -/
theorem subscribe_expansion (subs pid : Nat) :
    ((subscribe_frames subs pid).map fun f => (f.evt, f.args)).Perm
      (spec_subscribe_expansion subs pid) ∧
    (∀ f ∈ subscribe_frames subs pid, f.cmd = CommandKind.subscribe) ∧
    subscribe_frames (SUBS_ACTIVITY ||| SUBS_USER) pid =
      [⟨CommandKind.subscribe, EventKind.activityInvite, NONCE_TAG ||| 1, none⟩,
       ⟨CommandKind.subscribe, EventKind.activityJoin, NONCE_TAG ||| 2, none⟩,
       ⟨CommandKind.subscribe, EventKind.activityJoinRequest, NONCE_TAG ||| 3, none⟩,
       ⟨CommandKind.subscribe, EventKind.activitySpectate, NONCE_TAG ||| 4, none⟩,
       ⟨CommandKind.subscribe, EventKind.currentUserUpdate, NONCE_TAG ||| 5, none⟩] := by
  refine ⟨?_, ?_, ?_⟩
  · have hact : (activity_sub_kinds subs).map (fun k => (k, (none : Option Nat))) =
        (if subs_contains subs SUBS_ACTIVITY then
          [(EventKind.activityInvite, none), (EventKind.activityJoin, none),
           (EventKind.activityJoinRequest, none), (EventKind.activitySpectate, none)]
        else []) := by
      rw [activity_sub_kinds]; split <;> rfl
    have hlob : (lobby_sub_kinds subs).map (fun k => (k, (none : Option Nat))) =
        (if subs_contains subs SUBS_LOBBY then
          [(EventKind.lobbyDelete, none), (EventKind.lobbyMemberConnect, none),
           (EventKind.lobbyMemberDisconnect, none), (EventKind.lobbyMemberUpdate, none),
           (EventKind.lobbyMessage, none), (EventKind.lobbyUpdate, none),
           (EventKind.speakingStart, none), (EventKind.speakingStop, none)]
        else []) := by
      rw [lobby_sub_kinds]; split <;> rfl
    have husr : (user_sub_kinds subs).map (fun k => (k, (none : Option Nat))) =
        (if subs_contains subs SUBS_USER then [(EventKind.currentUserUpdate, none)]
        else []) := by
      rw [user_sub_kinds]; split <;> rfl
    have hrel : (relationships_sub_kinds subs).map (fun k => (k, (none : Option Nat))) =
        (if subs_contains subs SUBS_RELATIONSHIPS then [(EventKind.relationshipUpdate, none)]
        else []) := by
      rw [relationships_sub_kinds]; split <;> rfl
    have hovl : ∀ m : Nat, ((if subs_contains subs SUBS_OVERLAY then
        [SubscribeRpc.mk CommandKind.subscribe EventKind.overlayUpdate m (some pid)]
      else []).map fun f => (f.evt, f.args)) =
        (if subs_contains subs SUBS_OVERLAY then [(EventKind.overlayUpdate, some pid)]
        else []) := fun m => by
      split <;> rfl
    rw [subscribe_frames, List.map_append, push_subs_map_evt_args, chained_sub_kinds,
      List.map_append, List.map_append, List.map_append, hact, hlob, husr, hrel, hovl,
      spec_subscribe_expansion]
    rw [List.append_assoc (_ ++ _ ++ _), List.append_assoc (_ ++ _ ++ _)]
    exact List.Perm.append_left _ List.perm_append_comm
  · intro f hf
    rw [subscribe_frames] at hf
    rcases List.mem_append.mp hf with h | h
    · exact push_subs_cmd _ 1 f h
    · by_cases hc : subs_contains subs SUBS_OVERLAY
      · rw [if_pos hc, List.mem_singleton] at h
        rw [h]
      · rw [if_neg hc] at h
        exact absurd h (List.not_mem_nil f)
  · rfl

/-- C4 (witness): the expansion at `subs = ACTIVITY | USER`, `pid = 42`. -/
theorem subscribe_expansion_witness :
    ((subscribe_frames (SUBS_ACTIVITY ||| SUBS_USER) 42).map fun f => (f.evt, f.args)).Perm
      (spec_subscribe_expansion (SUBS_ACTIVITY ||| SUBS_USER) 42) ∧
    (SubscribeRpc.mk CommandKind.subscribe EventKind.activityInvite (NONCE_TAG ||| 1)
      none).cmd = CommandKind.subscribe :=
  ⟨(subscribe_expansion (SUBS_ACTIVITY ||| SUBS_USER) 42).1,
   (subscribe_expansion (SUBS_ACTIVITY ||| SUBS_USER) 42).2.1 _ (by
     rw [(subscribe_expansion (SUBS_ACTIVITY ||| SUBS_USER) 42).2.2]
     exact List.mem_cons_self _ _)⟩

/-! ### Lobby state projection (`lobby/state.rs`, `LobbyStates`) -/

/-- `lobby.rs`, `enum Region`. -/
inductive Region
  | Amsterdam | Brazil | Dubai | EuCentral | EuWest | Europe | Frankfurt | Hongkong
  | India | Japan | London | Russia | Singapore | Southafrica | SouthKorea | Stockholm
  | Sydney | UsCentral | UsEast | UsSouth | UsWest | VipAmsterdam | VipUsEast | VipUsWest
  | StPete
deriving DecidableEq, Repr

/-- `lobby.rs`, `enum LobbyKind` (`Private = 1`, `Public = 2`). -/
inductive LobbyKind
  | Private
  | Public
deriving DecidableEq, Repr

/-- `user.rs`, `struct User` (the avatar is an `Option<[u8; 16]>`). -/
structure User where
  id : Nat
  username : String
  discriminator : Option Nat
  avatar : Option (List Nat)
  is_bot : Bool
deriving DecidableEq, Repr

/-- `lobby.rs`, `struct VoiceState`. -/
structure VoiceState where
  channel_id : Nat
  deaf : Bool
  mute : Bool
  self_deaf : Bool
  self_mute : Bool
  self_video : Bool
  session_id : String
  suppress : Bool
  user_id : Nat
deriving DecidableEq, Repr

/-- `lobby.rs`, `struct LobbyMember`; `Metadata = BTreeMap<String, String>` is
modelled as an association list. -/
structure LobbyMember where
  metadata : List (String × String)
  user : User
  speaking : Bool
deriving DecidableEq, Repr

/-- `lobby.rs`, `struct Lobby`. -/
structure Lobby where
  id : Nat
  capacity : Nat
  locked : Bool
  members : List LobbyMember
  metadata : List (String × String)
  owner_id : Nat
  region : Region
  secret : String
  kind : LobbyKind
  voice_states : List VoiceState
deriving DecidableEq, Repr

/-- `lobby.rs`, `enum LobbyMessage`. -/
inductive LobbyMessage
  | binary (data : List Nat)
  | text (data : String)
deriving DecidableEq, Repr

/-- `lobby/events.rs`, `struct SpeakingEvent`. -/
structure SpeakingEvent where
  lobby_id : Nat
  user_id : Nat
deriving DecidableEq, Repr

/-- `lobby/events.rs`, `struct MemberEvent`. -/
structure MemberEvent where
  lobby_id : Nat
  member : LobbyMember
deriving DecidableEq, Repr

/-- `lobby/events.rs`, `struct MessageEvent`. -/
structure MessageEvent where
  lobby_id : Nat
  sender_id : Nat
  data : LobbyMessage
deriving DecidableEq, Repr

/-- `lobby/events.rs`, `enum LobbyEvent`. -/
inductive LobbyEvent
  | create (lobby : Lobby)
  | connect (lobby : Lobby)
  | speakingStart (event : SpeakingEvent)
  | speakingStop (event : SpeakingEvent)
  | memberConnect (event : MemberEvent)
  | memberDisconnect (event : MemberEvent)
  | memberUpdate (event : MemberEvent)
  | delete (id : Nat)
  | update (lobby : Lobby)
  | message (event : MessageEvent)
deriving DecidableEq, Repr

/-- `lobby/state.rs`, `struct LobbyState`: a lobby plus the messages sent to
it. -/
structure LobbyState where
  lobby : Lobby
  messages : List LobbyMessage
deriving DecidableEq, Repr

/-- `iter_mut().find(p)` followed by a mutation of the found element: modify
the first element satisfying `p`, leave everything else unchanged. -/
def modifyFirst {α : Type} (p : α → Bool) (f : α → α) : List α → List α
  | [] => []
  | x :: xs => if p x then f x :: xs else x :: modifyFirst p f xs

/-- `lobby/state.rs`, `LobbyStates::mut_member`: find the lobby with id
`lid`, find the member with user id `mid` inside it, and apply `code` to that
member. -/
def mut_member (lobbies : List LobbyState) (lid mid : Nat)
    (code : LobbyMember → LobbyMember) : List LobbyState :=
  modifyFirst (fun l => l.lobby.id == lid)
    (fun l => { l with lobby := { l.lobby with
      members := modifyFirst (fun mem => mem.user.id == mid) code l.lobby.members } })
    lobbies

/-- `lobby/state.rs`, `LobbyStates::on_event`: the lobby-state reducer. -/
def on_event (lobbies : List LobbyState) : LobbyEvent → List LobbyState
  | .create lobby | .connect lobby => lobbies ++ [⟨lobby, []⟩]
  | .delete id =>
    match lobbies.findIdx? (fun l => l.lobby.id == id) with
    | some i => swapRemove lobbies i
    | none => lobbies
  | .update lobby =>
    modifyFirst (fun l => l.lobby.id == lobby.id)
      (fun l => { l with lobby := { l.lobby with
        capacity := lobby.capacity, kind := lobby.kind, locked := lobby.locked,
        metadata := lobby.metadata, owner_id := lobby.owner_id } }) lobbies
  | .memberConnect me =>
    modifyFirst (fun l => l.lobby.id == me.lobby_id)
      (fun l => { l with lobby := { l.lobby with
        members := l.lobby.members ++ [me.member] } }) lobbies
  | .memberDisconnect me =>
    modifyFirst (fun l => l.lobby.id == me.lobby_id)
      (fun l => { l with lobby := { l.lobby with
        members :=
          match l.lobby.members.findIdx? (fun mem => mem.user.id == me.member.user.id) with
          | some i => l.lobby.members.eraseIdx i
          | none => l.lobby.members } }) lobbies
  | .memberUpdate me =>
    mut_member lobbies me.lobby_id me.member.user.id
      (fun member => { me.member with speaking := member.speaking })
  | .message msg =>
    modifyFirst (fun l => l.lobby.id == msg.lobby_id)
      (fun l => { l with messages := l.messages ++ [msg.data] }) lobbies
  | .speakingStart se =>
    mut_member lobbies se.lobby_id se.user_id fun member => { member with speaking := true }
  | .speakingStop se =>
    mut_member lobbies se.lobby_id se.user_id fun member => { member with speaking := false }

theorem modifyFirst_eq_of_not_found {α : Type} (p : α → Bool) (f : α → α) (l : List α)
    (h : ∀ a ∈ l, p a = false) : modifyFirst p f l = l := by
  induction l with
  | nil => rfl
  | cons x xs ih =>
    rw [modifyFirst, if_neg (by simp [h x (List.mem_cons_self x xs)]),
      ih fun a ha => h a (List.mem_cons_of_mem x ha)]

theorem modifyFirst_append_first {α : Type} (p : α → Bool) (f : α → α) (pre : List α) (x : α)
    (post : List α) (hpre : ∀ a ∈ pre, p a = false) (hx : p x = true) :
    modifyFirst p f (pre ++ x :: post) = pre ++ f x :: post := by
  induction pre with
  | nil => rw [List.nil_append, modifyFirst, if_pos hx, List.nil_append]
  | cons a as ih =>
    rw [List.cons_append, modifyFirst, if_neg (by simp [hpre a (List.mem_cons_self a as)]),
      ih fun b hb => hpre b (List.mem_cons_of_mem a hb), List.cons_append]

/-- C9: `MemberUpdate` replaces the matching member of the matching lobby by
the incoming member while preserving its previous `speaking` flag, leaving
the other members, the other lobbies and every message list untouched; when
no lobby with that id — or no member with that user id — exists, the state is
unchanged. -/
theorem lobby_member_update_reducer :
    (∀ (me : MemberEvent) (pre post : List LobbyState) (ls : LobbyState)
      (mpre mpost : List LobbyMember) (m : LobbyMember),
      (∀ l ∈ pre, l.lobby.id ≠ me.lobby_id) → ls.lobby.id = me.lobby_id →
      ls.lobby.members = mpre ++ m :: mpost →
      (∀ x ∈ mpre, x.user.id ≠ me.member.user.id) → m.user.id = me.member.user.id →
      on_event (pre ++ ls :: post) (.memberUpdate me) =
        pre ++ { ls with lobby := { ls.lobby with
          members := mpre ++ { me.member with speaking := m.speaking } :: mpost } } :: post) ∧
    (∀ (me : MemberEvent) (s : List LobbyState),
      (∀ l ∈ s, l.lobby.id ≠ me.lobby_id) → on_event s (.memberUpdate me) = s) ∧
    (∀ (me : MemberEvent) (pre post : List LobbyState) (ls : LobbyState),
      (∀ l ∈ pre, l.lobby.id ≠ me.lobby_id) → ls.lobby.id = me.lobby_id →
      (∀ x ∈ ls.lobby.members, x.user.id ≠ me.member.user.id) →
      on_event (pre ++ ls :: post) (.memberUpdate me) = pre ++ ls :: post) := by
  refine ⟨?_, ?_, ?_⟩
  · intro me pre post ls mpre mpost m hpre hid hmem hmpre hmid
    rw [on_event, mut_member,
      modifyFirst_append_first _ _ pre ls post
        (fun a ha => beq_eq_false_iff_ne.mpr (hpre a ha)) (beq_iff_eq.mpr hid),
      hmem,
      modifyFirst_append_first _ _ mpre m mpost
        (fun a ha => beq_eq_false_iff_ne.mpr (hmpre a ha)) (beq_iff_eq.mpr hmid)]
  · intro me s h
    rw [on_event, mut_member,
      modifyFirst_eq_of_not_found _ _ s fun a ha => beq_eq_false_iff_ne.mpr (h a ha)]
  · intro me pre post ls hpre hid hmem
    rw [on_event, mut_member,
      modifyFirst_append_first _ _ pre ls post
        (fun a ha => beq_eq_false_iff_ne.mpr (hpre a ha)) (beq_iff_eq.mpr hid),
      modifyFirst_eq_of_not_found _ _ ls.lobby.members
        fun a ha => beq_eq_false_iff_ne.mpr (hmem a ha)]

/-- C9 (witness): a concrete member update preserving `speaking = true`. -/
theorem lobby_member_update_reducer_witness :
    on_event
      [⟨⟨7, 4, false, [⟨[], ⟨10, "a", none, none, false⟩, true⟩], [], 10,
        Region.EuWest, "s", LobbyKind.Public, []⟩, []⟩]
      (.memberUpdate ⟨7, ⟨[("k", "v")], ⟨10, "a", none, none, false⟩, false⟩⟩) =
      [⟨⟨7, 4, false, [⟨[("k", "v")], ⟨10, "a", none, none, false⟩, true⟩], [], 10,
        Region.EuWest, "s", LobbyKind.Public, []⟩, []⟩] :=
  lobby_member_update_reducer.1 ⟨7, ⟨[("k", "v")], ⟨10, "a", none, none, false⟩, false⟩⟩
    [] [] ⟨⟨7, 4, false, [⟨[], ⟨10, "a", none, none, false⟩, true⟩], [], 10,
      Region.EuWest, "s", LobbyKind.Public, []⟩, []⟩ [] [] ⟨[], ⟨10, "a", none, none, false⟩, true⟩
    (fun l hl => absurd hl (List.not_mem_nil l)) rfl rfl
    (fun x hx => absurd hx (List.not_mem_nil x)) rfl

end DiscordSdk
